import Mathlib

/-!
Shallow embedding of the dr-sax HTML-to-Markdown converter.

Sources:
* `src/dialect.js` — the default dialect table (`tagTable` below);
* `src/lib/drsax.js` — the event-driven render stack machine
  (`onopentag`, `ontext`, `onclosetag`, `_closeUnclosedTags`, `write`).

Modelling conventions:
* JS arrays used as stacks (`tagStack`, `listStack`, `indentStack`,
  `spliceStack`) are modelled as Lean lists with the top of the stack at the
  head: JS `push` is cons, `pop` is `tail` (a no-op on the empty list, as in
  JS), `last` is `head?` (`undefined` on empty is `none`).
* The output buffer `stack` is kept in document order, since
  `Array.prototype.splice` indexes it from the front: JS `push` appends at the
  end (`pushFrag`), `splice(pos, 0, x)` is `spliceIns`, `last` is `getLast?`,
  `pop` is `dropLast`.
* The external tokenizer (htmlparser2) is out of scope per the spec; the
  machine consumes an explicit list of `Event`s.  The facade strips literal
  newlines and tabs from raw input before tokenizing, so for inputs that came
  through `write` a text event never contains a newline or tab character.
-/

namespace DrSax

/-- One attribute rendering rule of a dialect entry: the nested open/close
marker pair (`src/dialect.js`, e.g. `a.attrs.href = {open: '(', close: ')'}`).
`openMark` models the JS `open` field (`open` is a Lean keyword). -/
structure AttrSpec where
  openMark : String
  close : String
deriving Repr, DecidableEq

/-- One dialect entry (`src/dialect.js`).  `openMark`/`close` model the JS
`open`/`close` strings; `block` is the JS `block` flag (absent = `false`);
`indent` is the JS `indent` string when present (`none` models an absent
field; JS truthiness of `tag.indent` is `isSome`, and every `indent` string in
the source dialect is non-empty); `attrs` is the ordered attribute map, in the
source object's key insertion order. -/
structure TagSpec where
  openMark : String
  close : String
  block : Bool := false
  indent : Option String := none
  attrs : Option (List (String × AttrSpec)) := none
deriving Repr, DecidableEq

/-- The default dialect table, entry for entry from `src/dialect.js`.
Lookup of an absent tag name is `none` (JS `undefined`). -/
def tagTable : String → Option TagSpec
  | "b" => some { openMark := "**", close := "**" }
  | "i" => some { openMark := "*", close := "*" }
  | "img" => some { openMark := "!", close := "",
                    attrs := some [("alt", { openMark := "[", close := "]" }),
                                   ("src", { openMark := "(", close := ")" })] }
  | "a" => some { openMark := "", close := "",
                  attrs := some [("text", { openMark := "[", close := "]" }),
                                 ("href", { openMark := "(", close := ")" })] }
  | "blockquote" => some { openMark := "> ", close := "", block := true, indent := some "> " }
  | "code" => some { openMark := "```\n", close := "\n```", block := true }
  | "pre" => some { openMark := "`", close := "`" }
  | "p" => some { openMark := "", close := "", block := true }
  | "ol" => some { openMark := "", close := "", block := true, indent := some "\t" }
  | "ul" => some { openMark := "", close := "", block := true, indent := some "\t" }
  | "olli" => some { openMark := "1. ", close := "\n" }
  | "ulli" => some { openMark := "* ", close := "\n" }
  | "hr" => some { openMark := "- - -", close := "", block := true }
  | "h1" => some { openMark := "# ", close := "\n" }
  | "h2" => some { openMark := "## ", close := "\n" }
  | "h3" => some { openMark := "### ", close := "\n" }
  | "h4" => some { openMark := "#### ", close := "\n" }
  | "h5" => some { openMark := "##### ", close := "\n" }
  | "h6" => some { openMark := "###### ", close := "\n" }
  | _ => none

/-- Constructor options (`drsax.js` lines 16–31).  Only `stripTags` matters to
the state machine; the dialect override is out of scope (the claims are about
the default dialect). -/
structure Options where
  stripTags : Bool
deriving Repr, DecidableEq

/-- The mutable per-instance render state, field for field from `_init`
(`drsax.js` lines 39–49).  `tag` is `this.tag`, the spec resolved for the most
recently looked-up open tag (`undefined` is `none`). -/
structure State where
  stack : List String
  splicePos : Nat
  spliceStack : List String
  listStack : List String
  trimNL : Bool
  tagStack : List String
  ignoreClose : Bool
  indentStack : List String
  tag : Option TagSpec
deriving Repr, DecidableEq

/-- The reset state established by `_init` (`drsax.js` lines 39–49). -/
def initState : State :=
  { stack := [], splicePos := 0, spliceStack := [], listStack := [],
    trimNL := false, tagStack := [], ignoreClose := false, indentStack := [],
    tag := none }

/-- JS string coercion of an `array-last` result: `undefined` concatenated
into a string renders as `"undefined"` (used by `last(this.listStack)+'li'`,
`drsax.js` lines 97 and 224). -/
def jsStr : Option String → String
  | some s => s
  | none => "undefined"

/-- JS `Array.prototype.push` on the document-ordered output buffer. -/
def pushFrag (l : List String) (x : String) : List String :=
  l ++ [x]

/-- JS `Array.prototype.splice(pos, 0, x)`: insert `x` at index `pos`,
appending at the end when `pos` exceeds the length. -/
def spliceIns (pos : Nat) (x : String) (l : List String) : List String :=
  l.take pos ++ x :: l.drop pos

/-- Modelled from the spec: the `repeat` helper module (`lib/repeat`, not
under `src/`).  §4.3 step 6: "append the indent unit repeated
`indentStack.length` times". -/
def repeatStr (s : String) (n : Nat) : String :=
  String.join (List.replicate n s)

/-- The indent unit for the current indent context (`drsax.js` lines
130–134): the `indent` string of the dialect entry of the top of
`indentStack`.  The fallbacks are unreachable for the default dialect, since
only mapped names with an `indent` string are ever pushed onto `indentStack`
(JS would throw on a missing entry). -/
def indentUnit (indentStack : List String) : String :=
  match indentStack.head? with
  | some n =>
    match tagTable n with
    | some t => t.indent.getD "undefined"
    | none => "undefined"
  | none => "undefined"

/-- JS `text.replace(/\n/g, '')` (`drsax.js` line 200). -/
def stripNL (t : String) : String :=
  String.mk (t.data.filter (fun c => c != '\n'))

/-- Phase argument of the tag reconstructor. -/
inductive Phase
  | openP
  | closeP
deriving Repr, DecidableEq

/-- Modelled from the spec: the `rebuild-tag` helper module
(`lib/rebuild-tag`, not under `src/`).  §4.2: "Rebuilds a literal
`<name attr="value" ...>` or `</name>` string", used only for tags absent
from the dialect table when pass-through is enabled. -/
def rebuildTag (name : String) (attrs : List (String × String)) (phase : Phase) : String :=
  match phase with
  | Phase.openP =>
    "<" ++ name ++ String.join (attrs.map (fun kv => " " ++ kv.1 ++ "=\x22" ++ kv.2 ++ "\x22")) ++ ">"
  | Phase.closeP => "</" ++ name ++ ">"

/-- `onopentag` lines 107–109: list containers are recorded on `listStack`. -/
def openListPush (name : String) (s : State) : State :=
  if name = "ol" ∨ name = "ul" then { s with listStack := name :: s.listStack } else s

/-- `onopentag` lines 111–117: the pre/code collapse.  Note that in the source
this test runs after `this.tagStack.push(name)` (line 102), so
`last(this.tagStack)` is the name just pushed. -/
def openPreCodeCollapse (name : String) (s : State) : State :=
  if name = "code" ∧ s.tagStack.head? = some "pre" then
    { s with ignoreClose := true, stack := s.stack.dropLast }
  else s

/-- `onopentag` lines 119–125: blank-line spacing before a block-level tag. -/
def openBlockSpacing (tag : TagSpec) (s : State) : State :=
  if tag.block ∧ s.stack.getLast? ≠ some "\n\n" ∧ s.stack.length > 0 then
    if s.indentStack.length = 0 then { s with stack := pushFrag s.stack "\n\n" }
    else { s with stack := pushFrag s.stack "\n" }
  else s

/-- `onopentag` lines 127–134: push the repeated indent prefix. -/
def openIndentText (s : State) : State :=
  if s.indentStack.length > 0 then
    { s with stack := pushFrag s.stack (repeatStr (indentUnit s.indentStack) s.indentStack.length) }
  else s

/-- `onopentag` lines 136–140: record an indentable tag, except at the sole
list level. -/
def openIndentPush (tag : TagSpec) (name : String) (s : State) : State :=
  if tag.indent.isSome ∧ s.listStack.length ≠ 1 then
    { s with indentStack := name :: s.indentStack }
  else s

/-- `onopentag` lines 142–149: emit the open marker, at `splicePos`
(advancing it) when deferred insertion is active. -/
def openMarkerPush (tag : TagSpec) (s : State) : State :=
  if tag.openMark.length > 0 then
    if s.spliceStack.length > 0 then
      { s with stack := spliceIns s.splicePos tag.openMark s.stack, splicePos := s.splicePos + 1 }
    else { s with stack := pushFrag s.stack tag.openMark }
  else s

/-- One iteration of the attribute loop, `onopentag` lines 154–168. -/
def openAttrStep (name : String) (attrs : List (String × String)) (s : State)
    (kv : String × AttrSpec) : State :=
  let s1 := { s with stack := pushFrag s.stack kv.2.openMark }
  let s2 :=
    if kv.1 = "text" then
      { s1 with splicePos := s1.stack.length, spliceStack := name :: s1.spliceStack }
    else
      match attrs.lookup kv.1 with
      | some v => { s1 with stack := pushFrag s1.stack v }
      | none => s1
  { s2 with stack := pushFrag s2.stack kv.2.close }

/-- `onopentag` lines 151–169: render the attributes in declared order. -/
def openAttrs (tag : TagSpec) (name : String) (attrs : List (String × String)) (s : State) : State :=
  match tag.attrs with
  | some l => l.foldl (openAttrStep name attrs) s
  | none => s

/-- The effective lookup name of an open event after list-item resolution
(`onopentag` lines 95–98). -/
def openEffName (name0 : String) (s : State) : String :=
  if name0 = "li" then jsStr s.listStack.head? ++ "li" else name0

/-- `DrSax.prototype.onopentag` (`drsax.js` lines 89–175). -/
def onopentag (opts : Options) (name0 : String) (attrs : List (String × String)) (s : State) : State :=
  let trimNL1 := if name0 = "li" then true else s.trimNL
  let name := openEffName name0 s
  match tagTable name with
  | some tag =>
    let s1 := { s with trimNL := trimNL1, tag := some tag, tagStack := name :: s.tagStack }
    openAttrs tag name attrs
      (openMarkerPush tag
        (openIndentPush tag name
          (openIndentText
            (openBlockSpacing tag
              (openPreCodeCollapse name
                (openListPush name s1))))))
  | none =>
    { s with trimNL := trimNL1, tag := none,
             stack := if opts.stripTags then s.stack
                      else pushFrag s.stack (rebuildTag name0 attrs Phase.openP) }

/-- `this.text` as read at `drsax.js` line 199: the property is never
assigned anywhere in the source, so it is always `undefined`. -/
def thisTextProp : Option String := none

/-- Whether the last output fragment ends in a newline
(`last(this.stack).match(/\n$/)`, `drsax.js` line 199).  On an empty buffer
JS would throw, but the read is short-circuited away by the always-false
`this.text === '\n'` conjunct, so `false` is never observable there. -/
def fragEndsNL : Option String → Bool
  | some f => f.data.getLast? == some '\n'
  | none => false

/-- `DrSax.prototype.ontext` (`drsax.js` lines 185–204).  The source's
`this.tag.close !== false` conjunct is always true here because `close` is a
string in every dialect entry. -/
def ontext (t : String) (s : State) : State :=
  let s1 :=
    match s.tag with
    | some tg =>
      if tg.block ∧ s.stack.getLast? ≠ some tg.openMark then
        { s with stack := pushFrag s.stack tg.openMark }
      else s
    | none => s
  if s1.spliceStack.length > 0 then
    { s1 with stack := spliceIns s1.splicePos t s1.stack, splicePos := s1.splicePos + 1 }
  else
    let t1 := if s1.trimNL ∨ (thisTextProp = some "\n" ∧ fragEndsNL s1.stack.getLast? = true)
              then stripNL t else t
    { s1 with stack := pushFrag s1.stack t1 }

/-- The effective close name after list-item resolution
(`onclosetag` lines 222–225). -/
def closeEffName (name0 : String) (s : State) : String :=
  if name0 = "li" then jsStr s.listStack.head? ++ "li" else name0

/-- `onclosetag` lines 230–236: emit the close marker unless suppressed; at
`splicePos` when deferred insertion is active (the source does not advance
`splicePos` here). -/
def closeMarkerPush (tag : TagSpec) (s : State) : State :=
  if s.ignoreClose = false ∧ tag.close.length > 0 then
    if s.spliceStack.length > 0 then
      { s with stack := spliceIns s.splicePos tag.close s.stack }
    else { s with stack := pushFrag s.stack tag.close }
  else s

/-- `onclosetag` lines 238–241: leave an indentable tag. -/
def closeIndentPop (tag : TagSpec) (s : State) : State :=
  if tag.indent.isSome then { s with indentStack := s.indentStack.tail } else s

/-- `onclosetag` lines 243–246: stop deferred insertion for this tag. -/
def closeSplicePop (name : String) (s : State) : State :=
  if s.spliceStack.head? = some name then { s with spliceStack := s.spliceStack.tail } else s

/-- `onclosetag` lines 248–255: spacing after a block-level tag. -/
def closeBlockSpacing (tag : TagSpec) (s : State) : State :=
  if tag.block then
    if s.indentStack.length < 1 then { s with stack := pushFrag s.stack "\n\n" }
    else { s with stack := pushFrag s.stack "\n" }
  else s

/-- `onclosetag` lines 257–260: pop the tag stack only on a match. -/
def closeTagPop (name : String) (s : State) : State :=
  if s.tagStack.head? = some name then { s with tagStack := s.tagStack.tail } else s

/-- `onclosetag` lines 217–219: undo the `listStack` push of a list
container. -/
def closeListPop (name0 : String) (s : State) : State :=
  if name0 = "ol" ∨ name0 = "ul" then { s with listStack := s.listStack.tail } else s

/-- `onclosetag` lines 222–223: reset `trimNL` when a list item closes. -/
def closeTrimNL (name0 : String) (s : State) : State :=
  if name0 = "li" then { s with trimNL := false } else s

/-- `DrSax.prototype.onclosetag` (`drsax.js` lines 214–271).  For the
list-item rename the source reads `this.listStack` after the `ol`/`ul` pop,
but those pops only run when the name is `ol`/`ul`, never `li`, so the read
sees the original `listStack`. -/
def onclosetag (opts : Options) (name0 : String) (s : State) : State :=
  let s2 := closeTrimNL name0 (closeListPop name0 s)
  let name := closeEffName name0 s
  let s3 :=
    match tagTable name with
    | some tag =>
      closeTagPop name
        (closeBlockSpacing tag
          (closeSplicePop name
            (closeIndentPop tag
              (closeMarkerPush tag s2))))
    | none =>
      if opts.stripTags then s2
      else { s2 with stack := pushFrag s2.stack (rebuildTag name0 [] Phase.closeP) }
  if s3.ignoreClose then { s3 with ignoreClose := false } else s3

/-- The three parse-event kinds delivered by the external tokenizer
(spec §6 input contract). -/
inductive Event
  | openTag (name : String) (attrs : List (String × String))
  | text (t : String)
  | closeTag (name : String)
deriving Repr, DecidableEq

/-- Dispatch one event to its handler. -/
def step (opts : Options) (s : State) (e : Event) : State :=
  match e with
  | Event.openTag n attrs => onopentag opts n attrs s
  | Event.text t => ontext t s
  | Event.closeTag n => onclosetag opts n s

/-- Process an event sequence from the reset state. -/
def run (opts : Options) (es : List Event) : State :=
  es.foldl (step opts) initState

/-- The loop body of `_closeUnclosedTags` (`drsax.js` lines 73–79): pop a
name, drive it through the close handler, repeat while the stack is
non-empty.  The second component records the names passed to `onclosetag`,
in invocation order.  The fuel argument only bounds the iteration count;
`tagStack.length` is always sufficient fuel because each iteration pops at
least one entry and the close handler never pushes onto `tagStack`
(see `closeLoop_fuel_irrelevant`). -/
def closeLoop (opts : Options) : Nat → State → State × List String
  | 0, s => (s, [])
  | Nat.succ fuel, s =>
    match s.tagStack with
    | [] => (s, [])
    | t :: rest =>
      let s1 := onclosetag opts t { s with tagStack := rest }
      let r := closeLoop opts fuel s1
      (r.1, t :: r.2)

/-- `DrSax.prototype._closeUnclosedTags` (`drsax.js` lines 73–79), together
with the trace of close-handler invocations it makes. -/
def closeUnclosedTags (opts : Options) (s : State) : State × List String :=
  closeLoop opts s.tagStack.length s

/-- Left-to-right non-overlapping replacement of two consecutive spaces by
one: `.replace(/\ \ /g, ' ')` (`drsax.js` line 68), on the character list of
the joined buffer. -/
def collapseSpaces : List Char → List Char
  | [] => []
  | [c] => [c]
  | c1 :: c2 :: rest =>
    if c1 = ' ' ∧ c2 = ' ' then ' ' :: collapseSpaces rest
    else c1 :: collapseSpaces (c2 :: rest)

/-- Left-to-right non-overlapping replacement of a space followed by a
newline by the newline: `.replace(/\ \n/g, '\n')` (`drsax.js` line 68). -/
def dropSpaceNL : List Char → List Char
  | [] => []
  | [c] => [c]
  | c1 :: c2 :: rest =>
    if c1 = ' ' ∧ c2 = '\n' then '\n' :: dropSpaceNL rest
    else c1 :: dropSpaceNL (c2 :: rest)

/-- Finalization (`drsax.js` line 68): join the buffer, then the two
whitespace-cleanup passes. -/
def finalize (frags : List String) : String :=
  String.mk (dropSpaceNL (collapseSpaces (String.join frags).data))

/-- The state at end of input: the parsed events, then the synthesized
closes of `_closeUnclosedTags` when any tag is still open
(`drsax.js` lines 58–63). -/
def finalState (opts : Options) (es : List Event) : State :=
  let s := run opts es
  if s.tagStack.length > 0 then (closeUnclosedTags opts s).1 else s

/-- `DrSax.prototype.write` (`drsax.js` lines 58–71), with the external
tokenizer replaced by an explicit event list. -/
def write (opts : Options) (es : List Event) : String :=
  finalize (finalState opts es).stack

/-- Default constructor options: `new DrSax()` leaves `stripTags` unset
(falsy). -/
def defaultOpts : Options :=
  { stripTags := false }

/-- Whether a character list contains two consecutive spaces. -/
def hasDoubleSpace : List Char → Bool
  | c1 :: c2 :: rest => (c1 == ' ' && c2 == ' ') || hasDoubleSpace (c2 :: rest)
  | _ => false

/-- Whether a character list contains three consecutive spaces. -/
def hasTripleSpace : List Char → Bool
  | c1 :: c2 :: c3 :: rest =>
    (c1 == ' ' && c2 == ' ' && c3 == ' ') || hasTripleSpace (c2 :: c3 :: rest)
  | _ => false

/-- Whether a character list contains a space immediately followed by a
newline. -/
def hasSpaceBeforeNL : List Char → Bool
  | c1 :: c2 :: rest => (c1 == ' ' && c2 == '\n') || hasSpaceBeforeNL (c2 :: rest)
  | _ => false

/-- Whether a tag name is mapped to an indentable dialect entry
(JS truthiness of `this.tagTable[name].indent`). -/
def isIndentName (n : String) : Bool :=
  match tagTable n with
  | some t => t.indent.isSome
  | none => false

/-- The number of indentable entries on a tag-name stack. -/
def countIndent (l : List String) : Nat :=
  (l.filter isIndentName).length

/-- State after `<pre><code>`: the two open events of a preformatted block
immediately wrapping a code block. -/
def statePreCode : State :=
  run defaultOpts [Event.openTag "pre" [], Event.openTag "code" []]

/-- State after `<b><b>`: two nested opens of the same mapped tag, as on
truncated input. -/
def stateBB : State :=
  run defaultOpts [Event.openTag "b" [], Event.openTag "b" []]

/-- State after `<ol><li>`: a mapped list container with one open item, whose
entry on `tagStack` is the effective name `olli`. -/
def stateOlLi : State :=
  run defaultOpts [Event.openTag "ol" [], Event.openTag "li" []]

/-- State after `<a href="x"><b>t`: deferred insertion for the anchor text is
active (`spliceStack = ["a"]`) while a bold tag is open inside the text
position. -/
def stateACb : State :=
  run defaultOpts
    [Event.openTag "a" [("href", "x")], Event.openTag "b" [], Event.text "t"]

/-- State after `<h1>a</h1>`: the output buffer ends in the heading's close
marker `"\n"`, no deferred insertion, `trimNL` off. -/
def stateH1a : State :=
  run defaultOpts [Event.openTag "h1" [], Event.text "a", Event.closeTag "h1"]

/-- State after `<ol><ol>`: a nested list container, so `tagStack` holds two
entries while `indentStack` holds one. -/
def stateOlOl : State :=
  run defaultOpts [Event.openTag "ol" [], Event.openTag "ol" []]

end DrSax

open DrSax

/-! ### Field-preservation lemmas for the open-handler steps -/

theorem openListPush_tagStack (n : String) (s : State) :
    (openListPush n s).tagStack = s.tagStack := by
  unfold openListPush; split <;> rfl

theorem openListPush_indentStack (n : String) (s : State) :
    (openListPush n s).indentStack = s.indentStack := by
  unfold openListPush; split <;> rfl

theorem openListPush_trimNL (n : String) (s : State) :
    (openListPush n s).trimNL = s.trimNL := by
  unfold openListPush; split <;> rfl

theorem openPreCodeCollapse_tagStack (n : String) (s : State) :
    (openPreCodeCollapse n s).tagStack = s.tagStack := by
  unfold openPreCodeCollapse; split <;> rfl

theorem openPreCodeCollapse_indentStack (n : String) (s : State) :
    (openPreCodeCollapse n s).indentStack = s.indentStack := by
  unfold openPreCodeCollapse; split <;> rfl

theorem openPreCodeCollapse_trimNL (n : String) (s : State) :
    (openPreCodeCollapse n s).trimNL = s.trimNL := by
  unfold openPreCodeCollapse; split <;> rfl

theorem openBlockSpacing_tagStack (tag : TagSpec) (s : State) :
    (openBlockSpacing tag s).tagStack = s.tagStack := by
  unfold openBlockSpacing; split <;> (try split) <;> rfl

theorem openBlockSpacing_indentStack (tag : TagSpec) (s : State) :
    (openBlockSpacing tag s).indentStack = s.indentStack := by
  unfold openBlockSpacing; split <;> (try split) <;> rfl

theorem openBlockSpacing_trimNL (tag : TagSpec) (s : State) :
    (openBlockSpacing tag s).trimNL = s.trimNL := by
  unfold openBlockSpacing; split <;> (try split) <;> rfl

theorem openIndentText_tagStack (s : State) :
    (openIndentText s).tagStack = s.tagStack := by
  unfold openIndentText; split <;> rfl

theorem openIndentText_indentStack (s : State) :
    (openIndentText s).indentStack = s.indentStack := by
  unfold openIndentText; split <;> rfl

theorem openIndentText_trimNL (s : State) :
    (openIndentText s).trimNL = s.trimNL := by
  unfold openIndentText; split <;> rfl

theorem openIndentPush_tagStack (tag : TagSpec) (n : String) (s : State) :
    (openIndentPush tag n s).tagStack = s.tagStack := by
  unfold openIndentPush; split <;> rfl

theorem openIndentPush_trimNL (tag : TagSpec) (n : String) (s : State) :
    (openIndentPush tag n s).trimNL = s.trimNL := by
  unfold openIndentPush; split <;> rfl

theorem openIndentPush_indentStack_cases (tag : TagSpec) (n : String) (s : State) :
    (openIndentPush tag n s).indentStack = s.indentStack ∨
      (tag.indent.isSome = true ∧ (openIndentPush tag n s).indentStack = n :: s.indentStack) := by
  unfold openIndentPush
  split
  case isTrue h => exact Or.inr ⟨h.1, rfl⟩
  case isFalse h => exact Or.inl rfl

theorem openMarkerPush_tagStack (tag : TagSpec) (s : State) :
    (openMarkerPush tag s).tagStack = s.tagStack := by
  unfold openMarkerPush; split <;> (try split) <;> rfl

theorem openMarkerPush_indentStack (tag : TagSpec) (s : State) :
    (openMarkerPush tag s).indentStack = s.indentStack := by
  unfold openMarkerPush; split <;> (try split) <;> rfl

theorem openMarkerPush_trimNL (tag : TagSpec) (s : State) :
    (openMarkerPush tag s).trimNL = s.trimNL := by
  unfold openMarkerPush; split <;> (try split) <;> rfl

theorem openAttrStep_tagStack (n : String) (attrs : List (String × String))
    (s : State) (kv : String × AttrSpec) :
    (openAttrStep n attrs s kv).tagStack = s.tagStack := by
  unfold openAttrStep
  dsimp only
  split <;> (try split) <;> rfl

theorem openAttrStep_indentStack (n : String) (attrs : List (String × String))
    (s : State) (kv : String × AttrSpec) :
    (openAttrStep n attrs s kv).indentStack = s.indentStack := by
  unfold openAttrStep
  dsimp only
  split <;> (try split) <;> rfl

theorem openAttrStep_trimNL (n : String) (attrs : List (String × String))
    (s : State) (kv : String × AttrSpec) :
    (openAttrStep n attrs s kv).trimNL = s.trimNL := by
  unfold openAttrStep
  dsimp only
  split <;> (try split) <;> rfl

theorem openAttrs_foldl_tagStack (n : String) (attrs : List (String × String)) :
    ∀ (l : List (String × AttrSpec)) (s : State),
      (l.foldl (openAttrStep n attrs) s).tagStack = s.tagStack
  | [], _ => rfl
  | kv :: l, s => by
    rw [List.foldl_cons, openAttrs_foldl_tagStack n attrs l, openAttrStep_tagStack]

theorem openAttrs_foldl_indentStack (n : String) (attrs : List (String × String)) :
    ∀ (l : List (String × AttrSpec)) (s : State),
      (l.foldl (openAttrStep n attrs) s).indentStack = s.indentStack
  | [], _ => rfl
  | kv :: l, s => by
    rw [List.foldl_cons, openAttrs_foldl_indentStack n attrs l, openAttrStep_indentStack]

theorem openAttrs_foldl_trimNL (n : String) (attrs : List (String × String)) :
    ∀ (l : List (String × AttrSpec)) (s : State),
      (l.foldl (openAttrStep n attrs) s).trimNL = s.trimNL
  | [], _ => rfl
  | kv :: l, s => by
    rw [List.foldl_cons, openAttrs_foldl_trimNL n attrs l, openAttrStep_trimNL]

theorem openAttrs_tagStack (tag : TagSpec) (n : String) (attrs : List (String × String)) (s : State) :
    (openAttrs tag n attrs s).tagStack = s.tagStack := by
  unfold openAttrs
  split
  case h_1 l hl => exact openAttrs_foldl_tagStack n attrs _ s
  case h_2 => rfl

theorem openAttrs_indentStack (tag : TagSpec) (n : String) (attrs : List (String × String)) (s : State) :
    (openAttrs tag n attrs s).indentStack = s.indentStack := by
  unfold openAttrs
  split
  case h_1 l hl => exact openAttrs_foldl_indentStack n attrs _ s
  case h_2 => rfl

theorem openAttrs_trimNL (tag : TagSpec) (n : String) (attrs : List (String × String)) (s : State) :
    (openAttrs tag n attrs s).trimNL = s.trimNL := by
  unfold openAttrs
  split
  case h_1 l hl => exact openAttrs_foldl_trimNL n attrs _ s
  case h_2 => rfl

/-! ### Field-preservation lemmas for the close-handler steps -/

theorem closeMarkerPush_tagStack (tag : TagSpec) (s : State) :
    (closeMarkerPush tag s).tagStack = s.tagStack := by
  unfold closeMarkerPush; split <;> (try split) <;> rfl

theorem closeMarkerPush_indentStack (tag : TagSpec) (s : State) :
    (closeMarkerPush tag s).indentStack = s.indentStack := by
  unfold closeMarkerPush; split <;> (try split) <;> rfl

theorem closeMarkerPush_trimNL (tag : TagSpec) (s : State) :
    (closeMarkerPush tag s).trimNL = s.trimNL := by
  unfold closeMarkerPush; split <;> (try split) <;> rfl

theorem closeMarkerPush_splicePos (tag : TagSpec) (s : State) :
    (closeMarkerPush tag s).splicePos = s.splicePos := by
  unfold closeMarkerPush; split <;> (try split) <;> rfl

theorem closeIndentPop_tagStack (tag : TagSpec) (s : State) :
    (closeIndentPop tag s).tagStack = s.tagStack := by
  unfold closeIndentPop; split <;> rfl

theorem closeIndentPop_trimNL (tag : TagSpec) (s : State) :
    (closeIndentPop tag s).trimNL = s.trimNL := by
  unfold closeIndentPop; split <;> rfl

theorem closeIndentPop_splicePos (tag : TagSpec) (s : State) :
    (closeIndentPop tag s).splicePos = s.splicePos := by
  unfold closeIndentPop; split <;> rfl

theorem closeIndentPop_stack (tag : TagSpec) (s : State) :
    (closeIndentPop tag s).stack = s.stack := by
  unfold closeIndentPop; split <;> rfl

theorem closeIndentPop_indentStack (tag : TagSpec) (s : State) :
    (closeIndentPop tag s).indentStack =
      if tag.indent.isSome then s.indentStack.tail else s.indentStack := by
  unfold closeIndentPop; split <;> simp_all

theorem closeSplicePop_tagStack (n : String) (s : State) :
    (closeSplicePop n s).tagStack = s.tagStack := by
  unfold closeSplicePop; split <;> rfl

theorem closeSplicePop_indentStack (n : String) (s : State) :
    (closeSplicePop n s).indentStack = s.indentStack := by
  unfold closeSplicePop; split <;> rfl

theorem closeSplicePop_trimNL (n : String) (s : State) :
    (closeSplicePop n s).trimNL = s.trimNL := by
  unfold closeSplicePop; split <;> rfl

theorem closeSplicePop_splicePos (n : String) (s : State) :
    (closeSplicePop n s).splicePos = s.splicePos := by
  unfold closeSplicePop; split <;> rfl

theorem closeSplicePop_stack (n : String) (s : State) :
    (closeSplicePop n s).stack = s.stack := by
  unfold closeSplicePop; split <;> rfl

theorem closeBlockSpacing_tagStack (tag : TagSpec) (s : State) :
    (closeBlockSpacing tag s).tagStack = s.tagStack := by
  unfold closeBlockSpacing; split <;> (try split) <;> rfl

theorem closeBlockSpacing_indentStack (tag : TagSpec) (s : State) :
    (closeBlockSpacing tag s).indentStack = s.indentStack := by
  unfold closeBlockSpacing; split <;> (try split) <;> rfl

theorem closeBlockSpacing_trimNL (tag : TagSpec) (s : State) :
    (closeBlockSpacing tag s).trimNL = s.trimNL := by
  unfold closeBlockSpacing; split <;> (try split) <;> rfl

theorem closeBlockSpacing_splicePos (tag : TagSpec) (s : State) :
    (closeBlockSpacing tag s).splicePos = s.splicePos := by
  unfold closeBlockSpacing; split <;> (try split) <;> rfl

theorem closeBlockSpacing_stack_cases (tag : TagSpec) (s : State) :
    (closeBlockSpacing tag s).stack = s.stack ∨
      (closeBlockSpacing tag s).stack = s.stack ++ ["\n\n"] ∨
      (closeBlockSpacing tag s).stack = s.stack ++ ["\n"] := by
  unfold closeBlockSpacing
  split
  case isTrue =>
    split
    case isTrue => exact Or.inr (Or.inl rfl)
    case isFalse => exact Or.inr (Or.inr rfl)
  case isFalse => exact Or.inl rfl

theorem closeTagPop_indentStack (n : String) (s : State) :
    (closeTagPop n s).indentStack = s.indentStack := by
  unfold closeTagPop; split <;> rfl

theorem closeTagPop_trimNL (n : String) (s : State) :
    (closeTagPop n s).trimNL = s.trimNL := by
  unfold closeTagPop; split <;> rfl

theorem closeTagPop_splicePos (n : String) (s : State) :
    (closeTagPop n s).splicePos = s.splicePos := by
  unfold closeTagPop; split <;> rfl

theorem closeTagPop_stack (n : String) (s : State) :
    (closeTagPop n s).stack = s.stack := by
  unfold closeTagPop; split <;> rfl

theorem closeTagPop_tagStack (n : String) (s : State) :
    (closeTagPop n s).tagStack =
      if s.tagStack.head? = some n then s.tagStack.tail else s.tagStack := by
  unfold closeTagPop; split <;> simp_all

/-! ### Characterizations of the three event handlers -/

theorem ontext_tagStack (t : String) (s : State) :
    (ontext t s).tagStack = s.tagStack := by
  cases htag : s.tag <;>
    simp only [ontext, htag] <;>
    split <;> (try split) <;> (try split) <;> rfl

theorem ontext_indentStack (t : String) (s : State) :
    (ontext t s).indentStack = s.indentStack := by
  cases htag : s.tag <;>
    simp only [ontext, htag] <;>
    split <;> (try split) <;> (try split) <;> rfl

theorem ontext_trimNL (t : String) (s : State) :
    (ontext t s).trimNL = s.trimNL := by
  cases htag : s.tag <;>
    simp only [ontext, htag] <;>
    split <;> (try split) <;> (try split) <;> rfl

theorem onopentag_trimNL_ne (opts : Options) (n : String) (a : List (String × String))
    (s : State) (h : n ≠ "li") :
    (onopentag opts n a s).trimNL = s.trimNL := by
  cases htt : tagTable (openEffName n s)
  case none => simp only [onopentag, htt, if_neg h]
  case some tag =>
    simp only [onopentag, htt]
    rw [openAttrs_trimNL, openMarkerPush_trimNL, openIndentPush_trimNL, openIndentText_trimNL,
      openBlockSpacing_trimNL, openPreCodeCollapse_trimNL, openListPush_trimNL]
    simp only [if_neg h]

theorem onopentag_tagStack_of_mapped (opts : Options) (n : String) (a : List (String × String))
    (s : State) (tag : TagSpec) (h : tagTable (openEffName n s) = some tag) :
    (onopentag opts n a s).tagStack = openEffName n s :: s.tagStack := by
  simp only [onopentag, h]
  rw [openAttrs_tagStack, openMarkerPush_tagStack, openIndentPush_tagStack,
    openIndentText_tagStack, openBlockSpacing_tagStack, openPreCodeCollapse_tagStack,
    openListPush_tagStack]

theorem onopentag_tagStack_of_unmapped (opts : Options) (n : String) (a : List (String × String))
    (s : State) (h : tagTable (openEffName n s) = none) :
    (onopentag opts n a s).tagStack = s.tagStack := by
  simp only [onopentag, h]

theorem onopentag_indentStack_cases (opts : Options) (n : String) (a : List (String × String))
    (s : State) :
    (onopentag opts n a s).indentStack = s.indentStack ∨
      (isIndentName (openEffName n s) = true ∧
        (onopentag opts n a s).indentStack = openEffName n s :: s.indentStack) := by
  cases htt : tagTable (openEffName n s)
  case none => left; simp only [onopentag, htt]
  case some tag =>
    simp only [onopentag, htt]
    generalize (if n = "li" then true else s.trimNL) = b
    rw [openAttrs_indentStack, openMarkerPush_indentStack]
    unfold openIndentPush
    split
    case isTrue hcond =>
      right
      refine ⟨?_, ?_⟩
      · unfold isIndentName
        rw [htt]
        exact hcond.1
      · dsimp only
        rw [openIndentText_indentStack, openBlockSpacing_indentStack,
          openPreCodeCollapse_indentStack, openListPush_indentStack]
    case isFalse hcond =>
      left
      rw [openIndentText_indentStack, openBlockSpacing_indentStack,
        openPreCodeCollapse_indentStack, openListPush_indentStack]

theorem closeListPop_splicePos (n : String) (s : State) :
    (closeListPop n s).splicePos = s.splicePos := by
  unfold closeListPop; split <;> rfl

theorem closeListPop_tagStack (n : String) (s : State) :
    (closeListPop n s).tagStack = s.tagStack := by
  unfold closeListPop; split <;> rfl

theorem closeListPop_indentStack (n : String) (s : State) :
    (closeListPop n s).indentStack = s.indentStack := by
  unfold closeListPop; split <;> rfl

theorem closeListPop_stack (n : String) (s : State) :
    (closeListPop n s).stack = s.stack := by
  unfold closeListPop; split <;> rfl

theorem closeListPop_trimNL (n : String) (s : State) :
    (closeListPop n s).trimNL = s.trimNL := by
  unfold closeListPop; split <;> rfl

theorem closeListPop_ignoreClose (n : String) (s : State) :
    (closeListPop n s).ignoreClose = s.ignoreClose := by
  unfold closeListPop; split <;> rfl

theorem closeListPop_spliceStack (n : String) (s : State) :
    (closeListPop n s).spliceStack = s.spliceStack := by
  unfold closeListPop; split <;> rfl

theorem closeTrimNL_splicePos (n : String) (s : State) :
    (closeTrimNL n s).splicePos = s.splicePos := by
  unfold closeTrimNL; split <;> rfl

theorem closeTrimNL_tagStack (n : String) (s : State) :
    (closeTrimNL n s).tagStack = s.tagStack := by
  unfold closeTrimNL; split <;> rfl

theorem closeTrimNL_indentStack (n : String) (s : State) :
    (closeTrimNL n s).indentStack = s.indentStack := by
  unfold closeTrimNL; split <;> rfl

theorem closeTrimNL_stack (n : String) (s : State) :
    (closeTrimNL n s).stack = s.stack := by
  unfold closeTrimNL; split <;> rfl

theorem closeTrimNL_trimNL_ne (n : String) (s : State) (h : n ≠ "li") :
    (closeTrimNL n s).trimNL = s.trimNL := by
  unfold closeTrimNL; rw [if_neg h]

theorem closeTrimNL_ignoreClose (n : String) (s : State) :
    (closeTrimNL n s).ignoreClose = s.ignoreClose := by
  unfold closeTrimNL; split <;> rfl

theorem closeTrimNL_spliceStack (n : String) (s : State) :
    (closeTrimNL n s).spliceStack = s.spliceStack := by
  unfold closeTrimNL; split <;> rfl

theorem onclosetag_splicePos (opts : Options) (n : String) (s : State) :
    (onclosetag opts n s).splicePos = s.splicePos := by
  cases htt : tagTable (closeEffName n s)
  case none =>
    simp only [onclosetag, htt]
    split <;> (try split) <;>
      simp only [closeTrimNL_splicePos, closeListPop_splicePos]
  case some tag =>
    simp only [onclosetag, htt]
    split <;>
      simp only [closeTagPop_splicePos, closeBlockSpacing_splicePos, closeSplicePop_splicePos,
        closeIndentPop_splicePos, closeMarkerPush_splicePos, closeTrimNL_splicePos,
        closeListPop_splicePos]

theorem onclosetag_trimNL_ne (opts : Options) (n : String) (s : State) (h : n ≠ "li") :
    (onclosetag opts n s).trimNL = s.trimNL := by
  cases htt : tagTable (closeEffName n s)
  case none =>
    simp only [onclosetag, htt]
    split <;> (try split) <;>
      simp only [closeTrimNL, if_neg h, closeListPop_trimNL]
  case some tag =>
    simp only [onclosetag, htt]
    split <;>
      simp only [closeTagPop_trimNL, closeBlockSpacing_trimNL, closeSplicePop_trimNL,
        closeIndentPop_trimNL, closeMarkerPush_trimNL, closeTrimNL, if_neg h,
        closeListPop_trimNL]

theorem onclosetag_tagStack_eq (opts : Options) (n : String) (s : State) :
    (onclosetag opts n s).tagStack =
      if (tagTable (closeEffName n s)).isSome ∧ s.tagStack.head? = some (closeEffName n s) then
        s.tagStack.tail
      else s.tagStack := by
  cases htt : tagTable (closeEffName n s)
  case none =>
    simp only [onclosetag, htt, Option.isSome_none, Bool.false_eq_true, false_and, if_false]
    split <;> (try split) <;>
      simp only [closeTrimNL_tagStack, closeListPop_tagStack]
  case some tag =>
    simp only [onclosetag, htt, Option.isSome_some, true_and]
    split <;>
      simp only [closeTagPop_tagStack, closeBlockSpacing_tagStack, closeSplicePop_tagStack,
        closeIndentPop_tagStack, closeMarkerPush_tagStack, closeTrimNL_tagStack,
        closeListPop_tagStack]

theorem onclosetag_indentStack_eq (opts : Options) (n : String) (s : State) :
    (onclosetag opts n s).indentStack =
      if isIndentName (closeEffName n s) = true then s.indentStack.tail else s.indentStack := by
  cases htt : tagTable (closeEffName n s)
  case none =>
    have hii : isIndentName (closeEffName n s) = false := by
      unfold isIndentName; rw [htt]
    simp only [onclosetag, htt, hii, Bool.false_eq_true, if_false]
    split <;> (try split) <;>
      simp only [closeTrimNL_indentStack, closeListPop_indentStack]
  case some tag =>
    have hii : isIndentName (closeEffName n s) = tag.indent.isSome := by
      unfold isIndentName; rw [htt]
    simp only [onclosetag, htt, hii]
    split <;>
      simp only [closeTagPop_indentStack, closeBlockSpacing_indentStack,
        closeSplicePop_indentStack, closeIndentPop_indentStack, closeMarkerPush_indentStack,
        closeTrimNL_indentStack, closeListPop_indentStack]

theorem onclosetag_tagStack_of_ne (opts : Options) (n : String) (s : State)
    (h : s.tagStack.head? ≠ some (closeEffName n s)) :
    (onclosetag opts n s).tagStack = s.tagStack := by
  rw [onclosetag_tagStack_eq]
  simp [h]

/-! ### The stack-length invariant -/

theorem countIndent_cons (n : String) (l : List String) :
    countIndent (n :: l) = countIndent l + (if isIndentName n = true then 1 else 0) := by
  unfold countIndent
  by_cases h : isIndentName n = true <;> simp [List.filter_cons, h]

theorem countIndent_le_length (l : List String) :
    countIndent l ≤ l.length :=
  List.length_filter_le _ _

theorem countIndent_head (l : List String) (n : String) (h : l.head? = some n) :
    countIndent l = countIndent l.tail + (if isIndentName n = true then 1 else 0) := by
  cases l with
  | nil => simp at h
  | cons a t =>
    simp only [List.head?_cons, Option.some.injEq] at h
    subst h
    simp [countIndent_cons]

theorem onopentag_INV (opts : Options) (n : String) (a : List (String × String)) (s : State)
    (h : s.indentStack.length ≤ countIndent s.tagStack) :
    (onopentag opts n a s).indentStack.length ≤ countIndent (onopentag opts n a s).tagStack := by
  cases htt : tagTable (openEffName n s)
  case none =>
    rw [onopentag_tagStack_of_unmapped opts n a s htt]
    rcases onopentag_indentStack_cases opts n a s with hsame | ⟨hind, _⟩
    · rw [hsame]; exact h
    · exfalso
      unfold isIndentName at hind
      rw [htt] at hind
      exact Bool.false_ne_true hind
  case some tag =>
    rw [onopentag_tagStack_of_mapped opts n a s tag htt, countIndent_cons]
    rcases onopentag_indentStack_cases opts n a s with hsame | ⟨hind, hcons⟩
    · rw [hsame]
      exact le_trans h (Nat.le_add_right _ _)
    · rw [hcons, List.length_cons, hind]
      simp only [if_true]
      omega

theorem ontext_INV (t : String) (s : State)
    (h : s.indentStack.length ≤ countIndent s.tagStack) :
    (ontext t s).indentStack.length ≤ countIndent (ontext t s).tagStack := by
  rw [ontext_tagStack, ontext_indentStack]
  exact h

theorem onclosetag_INV (opts : Options) (n : String) (s : State)
    (h : s.indentStack.length ≤ countIndent s.tagStack) :
    (onclosetag opts n s).indentStack.length ≤ countIndent (onclosetag opts n s).tagStack := by
  rw [onclosetag_tagStack_eq, onclosetag_indentStack_eq]
  have htail : s.indentStack.tail.length = s.indentStack.length - 1 := List.length_tail _
  by_cases hii : isIndentName (closeEffName n s) = true
  · rw [if_pos hii]
    by_cases hmap :
        (tagTable (closeEffName n s)).isSome = true ∧
          s.tagStack.head? = some (closeEffName n s)
    · rw [if_pos hmap]
      have hcnt := countIndent_head s.tagStack _ hmap.2
      rw [if_pos hii] at hcnt
      omega
    · rw [if_neg hmap]
      have : s.indentStack.tail.length ≤ s.indentStack.length := by omega
      exact le_trans this h
  · rw [if_neg hii]
    by_cases hmap :
        (tagTable (closeEffName n s)).isSome = true ∧
          s.tagStack.head? = some (closeEffName n s)
    · rw [if_pos hmap]
      have hcnt := countIndent_head s.tagStack _ hmap.2
      rw [if_neg hii] at hcnt
      omega
    · rw [if_neg hmap]
      exact h

theorem step_INV (opts : Options) (e : Event) (s : State)
    (h : s.indentStack.length ≤ countIndent s.tagStack) :
    (step opts s e).indentStack.length ≤ countIndent (step opts s e).tagStack := by
  cases e with
  | openTag n a => exact onopentag_INV opts n a s h
  | text t => exact ontext_INV t s h
  | closeTag n => exact onclosetag_INV opts n s h

theorem foldl_INV (opts : Options) :
    ∀ (es : List Event) (s : State),
      s.indentStack.length ≤ countIndent s.tagStack →
      (es.foldl (step opts) s).indentStack.length ≤
        countIndent (es.foldl (step opts) s).tagStack
  | [], s, h => h
  | e :: es, s, h => by
    rw [List.foldl_cons]
    exact foldl_INV opts es (step opts s e) (step_INV opts e s h)

theorem run_INV (opts : Options) (es : List Event) :
    (run opts es).indentStack.length ≤ countIndent (run opts es).tagStack :=
  foldl_INV opts es initState (Nat.le_refl 0)

/-! ### The synthesized-close loop -/

theorem onclosetag_tagStack_length (opts : Options) (n : String) (s : State) :
    (onclosetag opts n s).tagStack.length ≤ s.tagStack.length := by
  rw [onclosetag_tagStack_eq]
  split
  · exact Nat.le_of_eq (List.length_tail _) |>.trans (Nat.sub_le _ _) |>.trans (Nat.le_refl _)
  · exact Nat.le_refl _

theorem closeLoop_trace (opts : Options) :
    ∀ (l : List String) (s : State), s.tagStack = l → "li" ∉ l →
      List.Chain' (fun a b => a ≠ b) l →
      (closeLoop opts l.length s).2 = l ∧ (closeLoop opts l.length s).1.tagStack = []
  | [], s, hs, _, _ => by
    simp [closeLoop, hs]
  | t :: rest, s, hs, hli, hch => by
    have hne : t ≠ "li" := fun he => hli (he ▸ List.mem_cons_self t rest)
    have heff : closeEffName t { s with tagStack := rest } = t := by
      unfold closeEffName; rw [if_neg hne]
    have hhead : ({ s with tagStack := rest } : State).tagStack.head? ≠ some t := by
      cases rest with
      | nil => simp
      | cons r rs =>
        have : t ≠ r := (List.chain'_cons.mp hch).1
        simp only [List.head?_cons, ne_eq, Option.some.injEq]
        exact fun he => this he.symm
    have h1 : (onclosetag opts t { s with tagStack := rest }).tagStack = rest := by
      apply onclosetag_tagStack_of_ne
      rw [heff]
      exact hhead
    have ih := closeLoop_trace opts rest (onclosetag opts t { s with tagStack := rest }) h1
      (fun hm => hli (List.mem_cons_of_mem t hm))
      (List.Chain'.tail hch)
    simp only [List.length_cons, closeLoop, hs]
    exact ⟨by rw [ih.1], ih.2⟩

/-! ### Splice-insertion positions -/

theorem spliceIns_length (pos : Nat) (x : String) (l : List String) :
    (spliceIns pos x l).length = l.length + 1 := by
  unfold spliceIns
  simp [List.length_take]
  omega

theorem spliceIns_getElem (pos : Nat) (x : String) (l : List String) (h : pos ≤ l.length) :
    (spliceIns pos x l)[pos]? = some x := by
  unfold spliceIns
  have hlen : (l.take pos).length = pos := by
    simp [List.length_take]
    omega
  rw [List.getElem?_append_right (by rw [hlen])]
  rw [hlen]
  simp

theorem spliceIns_take (pos : Nat) (x : String) (l : List String) (h : pos ≤ l.length) :
    (spliceIns pos x l).take pos = l.take pos := by
  unfold spliceIns
  have hlen : pos ≤ (l.take pos).length := by
    simp [List.length_take]
    omega
  rw [List.take_append_of_le_length hlen, List.take_take]
  simp

theorem closeMarkerPush_stack_splice (tag : TagSpec) (s : State)
    (hic : s.ignoreClose = false) (hcl : tag.close.length > 0)
    (hsp : s.spliceStack.length > 0) :
    (closeMarkerPush tag s).stack = spliceIns s.splicePos tag.close s.stack := by
  unfold closeMarkerPush
  rw [if_pos ⟨hic, hcl⟩, if_pos hsp]

theorem onclosetag_stack_splice_cases (opts : Options) (n : String) (s : State) (tag : TagSpec)
    (hli : n ≠ "li") (htt : tagTable n = some tag) (hic : s.ignoreClose = false)
    (hcl : tag.close.length > 0) (hsp : s.spliceStack.length > 0) :
    (onclosetag opts n s).stack = spliceIns s.splicePos tag.close s.stack ∨
      (onclosetag opts n s).stack = spliceIns s.splicePos tag.close s.stack ++ ["\n\n"] ∨
      (onclosetag opts n s).stack = spliceIns s.splicePos tag.close s.stack ++ ["\n"] := by
  have heff : closeEffName n s = n := by unfold closeEffName; rw [if_neg hli]
  have hm : (closeMarkerPush tag (closeTrimNL n (closeListPop n s))).stack =
      spliceIns s.splicePos tag.close s.stack := by
    rw [closeMarkerPush_stack_splice tag _
      (by rw [closeTrimNL_ignoreClose, closeListPop_ignoreClose]; exact hic) hcl
      (by rw [closeTrimNL_spliceStack, closeListPop_spliceStack]; exact hsp)]
    rw [closeTrimNL_splicePos, closeListPop_splicePos, closeTrimNL_stack, closeListPop_stack]
  simp only [onclosetag, heff, htt]
  split <;>
    (rcases closeBlockSpacing_stack_cases tag
        (closeSplicePop n (closeIndentPop tag
          (closeMarkerPush tag (closeTrimNL n (closeListPop n s))))) with hb | hb | hb <;>
      simp [closeTagPop_stack, hb, closeSplicePop_stack, closeIndentPop_stack, hm])

/-! ### Whitespace-collapse pass lemmas -/

theorem hasDoubleSpace_two (a b : Char) (l : List Char)
    (h : hasDoubleSpace (a :: b :: l) = false) :
    ¬(a = ' ' ∧ b = ' ') ∧ hasDoubleSpace (b :: l) = false := by
  simp only [hasDoubleSpace, Bool.or_eq_false_iff, Bool.and_eq_false_iff,
    beq_eq_false_iff_ne, ne_eq] at h
  refine ⟨fun hc => ?_, h.2⟩
  rcases h.1 with h1 | h1 <;> [exact h1 hc.1; exact h1 hc.2]

theorem hasDoubleSpace_cons (c : Char) (l : List Char)
    (h : hasDoubleSpace (c :: l) = false) :
    hasDoubleSpace l = false := by
  cases l with
  | nil => rfl
  | cons b r => exact (hasDoubleSpace_two c b r h).2

theorem hasTripleSpace_three (a b c : Char) (l : List Char)
    (h : hasTripleSpace (a :: b :: c :: l) = false) :
    ¬(a = ' ' ∧ b = ' ' ∧ c = ' ') ∧ hasTripleSpace (b :: c :: l) = false := by
  simp only [hasTripleSpace, Bool.or_eq_false_iff, Bool.and_eq_false_iff,
    beq_eq_false_iff_ne, ne_eq] at h
  refine ⟨fun hc => ?_, h.2⟩
  rcases h.1 with h1 | h1
  · rcases h1 with h1 | h1 <;> [exact h1 hc.1; exact h1 hc.2.1]
  · exact h1 hc.2.2

theorem hasTripleSpace_cons (c : Char) (l : List Char)
    (h : hasTripleSpace (c :: l) = false) :
    hasTripleSpace l = false := by
  cases l with
  | nil => rfl
  | cons b r =>
    cases r with
    | nil => rfl
    | cons d r2 => exact (hasTripleSpace_three c b d r2 h).2

theorem collapseSpaces_headq : ∀ (l : List Char), (collapseSpaces l).head? = l.head?
  | [] => rfl
  | [_] => rfl
  | c1 :: c2 :: rest => by
    unfold collapseSpaces
    split
    case isTrue h => simp [h.1]
    case isFalse h => simp

theorem collapseSpaces_noDouble : ∀ (l : List Char), hasTripleSpace l = false →
    hasDoubleSpace (collapseSpaces l) = false
  | [], _ => rfl
  | [_], _ => rfl
  | [c1, c2], _ => by
    unfold collapseSpaces
    split
    case isTrue h => rfl
    case isFalse h =>
      simp only [collapseSpaces, hasDoubleSpace, Bool.or_eq_false_iff, Bool.and_eq_false_iff,
        beq_eq_false_iff_ne, ne_eq]
      refine ⟨?_, trivial⟩
      by_cases h1 : c1 = ' '
      · exact Or.inr (fun h2 => h ⟨h1, h2⟩)
      · exact Or.inl h1
  | c1 :: c2 :: c3 :: r, h => by
    unfold collapseSpaces
    split
    case isTrue hsp =>
      have hc3 : c3 ≠ ' ' := by
        intro he
        exact (hasTripleSpace_three c1 c2 c3 r h).1 ⟨hsp.1, hsp.2, he⟩
      have hrest : hasTripleSpace (c3 :: r) = false :=
        hasTripleSpace_cons _ _ (hasTripleSpace_cons _ _ h)
      have ih := collapseSpaces_noDouble (c3 :: r) hrest
      have hhd : (collapseSpaces (c3 :: r)).head? = some c3 := by
        rw [collapseSpaces_headq]; rfl
      cases hcq : collapseSpaces (c3 :: r) with
      | nil => rfl
      | cons d ds =>
        rw [hcq] at hhd
        simp only [List.head?_cons, Option.some.injEq] at hhd
        subst hhd
        rw [hcq] at ih
        simp only [hasDoubleSpace, Bool.or_eq_false_iff, Bool.and_eq_false_iff,
          beq_eq_false_iff_ne, ne_eq]
        exact ⟨Or.inr hc3, ih⟩
    case isFalse hsp =>
      have hrest : hasTripleSpace (c2 :: c3 :: r) = false := hasTripleSpace_cons _ _ h
      have ih := collapseSpaces_noDouble (c2 :: c3 :: r) hrest
      have hhd : (collapseSpaces (c2 :: c3 :: r)).head? = some c2 := by
        rw [collapseSpaces_headq]; rfl
      cases hcq : collapseSpaces (c2 :: c3 :: r) with
      | nil => rfl
      | cons d ds =>
        rw [hcq] at hhd
        simp only [List.head?_cons, Option.some.injEq] at hhd
        subst hhd
        rw [hcq] at ih
        simp only [hasDoubleSpace, Bool.or_eq_false_iff, Bool.and_eq_false_iff,
          beq_eq_false_iff_ne, ne_eq]
        refine ⟨?_, ih⟩
        by_cases h1 : c1 = ' '
        · exact Or.inr (fun h2 => hsp ⟨h1, h2⟩)
        · exact Or.inl h1

theorem dropSpaceNL_headq_of_ne (c : Char) (l : List Char) (h : c ≠ ' ') :
    (dropSpaceNL (c :: l)).head? = some c := by
  cases l with
  | nil => rfl
  | cons c2 r =>
    unfold dropSpaceNL
    split
    case isTrue hsp => exact absurd hsp.1 h
    case isFalse hsp => simp

theorem hasSpaceBeforeNL_two (a b : Char) (l : List Char)
    (ha : ¬(a = ' ' ∧ b = '\n')) (hr : hasSpaceBeforeNL (b :: l) = false) :
    hasSpaceBeforeNL (a :: b :: l) = false := by
  simp only [hasSpaceBeforeNL, Bool.or_eq_false_iff, Bool.and_eq_false_iff,
    beq_eq_false_iff_ne, ne_eq]
  refine ⟨?_, hr⟩
  by_cases h1 : a = ' '
  · exact Or.inr (fun h2 => ha ⟨h1, h2⟩)
  · exact Or.inl h1

theorem hasDoubleSpace_two_intro (a b : Char) (l : List Char)
    (ha : ¬(a = ' ' ∧ b = ' ')) (hr : hasDoubleSpace (b :: l) = false) :
    hasDoubleSpace (a :: b :: l) = false := by
  simp only [hasDoubleSpace, Bool.or_eq_false_iff, Bool.and_eq_false_iff,
    beq_eq_false_iff_ne, ne_eq]
  refine ⟨?_, hr⟩
  by_cases h1 : a = ' '
  · exact Or.inr (fun h2 => ha ⟨h1, h2⟩)
  · exact Or.inl h1

theorem dropSpaceNL_ok : ∀ (l : List Char), hasDoubleSpace l = false →
    hasSpaceBeforeNL (dropSpaceNL l) = false ∧ hasDoubleSpace (dropSpaceNL l) = false
  | [], _ => ⟨rfl, rfl⟩
  | [c], _ => ⟨rfl, rfl⟩
  | c1 :: c2 :: rest, h => by
    unfold dropSpaceNL
    split
    case isTrue hsp =>
      have hrest : hasDoubleSpace rest = false :=
        hasDoubleSpace_cons _ _ (hasDoubleSpace_cons _ _ h)
      have ih := dropSpaceNL_ok rest hrest
      cases hcq : dropSpaceNL rest with
      | nil => exact ⟨rfl, rfl⟩
      | cons d ds =>
        rw [hcq] at ih
        constructor
        · exact hasSpaceBeforeNL_two '\n' d ds (fun hc => by simp at hc) ih.1
        · exact hasDoubleSpace_two_intro '\n' d ds (fun hc => by simp at hc) ih.2
    case isFalse hsp =>
      have h2 := hasDoubleSpace_two c1 c2 rest h
      have ih := dropSpaceNL_ok (c2 :: rest) h2.2
      cases hcq : dropSpaceNL (c2 :: rest) with
      | nil => exact ⟨rfl, rfl⟩
      | cons d ds =>
        rw [hcq] at ih
        by_cases h1 : c1 = ' '
        · have hc2sp : c2 ≠ ' ' := fun he => h2.1 ⟨h1, he⟩
          have hc2nl : c2 ≠ '\n' := fun he => hsp ⟨h1, he⟩
          have hhd : (dropSpaceNL (c2 :: rest)).head? = some c2 :=
            dropSpaceNL_headq_of_ne c2 rest hc2sp
          rw [hcq] at hhd
          simp only [List.head?_cons, Option.some.injEq] at hhd
          subst hhd
          constructor
          · exact hasSpaceBeforeNL_two c1 d ds (fun hc => hc2nl hc.2) ih.1
          · exact hasDoubleSpace_two_intro c1 d ds (fun hc => hc2sp hc.2) ih.2
        · constructor
          · exact hasSpaceBeforeNL_two c1 d ds (fun hc => h1 hc.1) ih.1
          · exact hasDoubleSpace_two_intro c1 d ds (fun hc => h1 hc.1) ih.2

theorem closeTrimNL_trimNL_li (s : State) : (closeTrimNL "li" s).trimNL = false := by
  unfold closeTrimNL
  rw [if_pos rfl]

theorem onclosetag_trimNL_li (opts : Options) (s : State) :
    (onclosetag opts "li" s).trimNL = false := by
  cases htt : tagTable (closeEffName "li" s)
  case none =>
    simp only [onclosetag, htt]
    split <;> (try split) <;>
      simp only [closeTrimNL_trimNL_li]
  case some tag =>
    simp only [onclosetag, htt]
    split <;>
      simp only [closeTagPop_trimNL, closeBlockSpacing_trimNL, closeSplicePop_trimNL,
        closeIndentPop_trimNL, closeMarkerPush_trimNL, closeTrimNL_trimNL_li]

theorem ontext_stack_trim (t : String) (s2 : State) (h1 : s2.trimNL = true)
    (h2 : s2.spliceStack = []) (h3 : s2.tag = none) :
    (ontext t s2).stack = s2.stack ++ [stripNL t] := by
  simp only [ontext, h3]
  rw [if_neg (by rw [h2]; simp)]
  rw [if_pos (Or.inl h1)]
  rfl

/-! ### Claim theorems -/

/-- C1: converting `<a href="http://example.org">this is a test</a>` — the
open event carries `href` as an attribute, the inner text arrives as a later
text event — yields exactly `[this is a test](http://example.org)`: the
deferred-insertion mechanism places the text strictly before the wrapped
href value. -/
theorem c1_anchor_deferred_insertion :
    write defaultOpts
        [Event.openTag "a" [("href", "http://example.org")],
         Event.text "this is a test", Event.closeTag "a"] =
      "[this is a test](http://example.org)" := by
  decide

/-- C2: evaluating the open handler on `<pre><code>` shows the collapsing
rule never fires: after the two open events `ignoreClose` is still `false`
and the preformatted-open fragment `` "`" `` is still in the output buffer
(the source checks `last(this.tagStack) === 'pre'` only after pushing
`'code'`, so the test compares `'code'` with `'pre'` and always fails). -/
theorem c2_pre_code_collapse_eval :
    statePreCode.ignoreClose = false ∧
      statePreCode.stack = ["`", "\n\n", "```\n"] ∧
      statePreCode.tagStack = ["code", "pre"] := by
  decide

/-- C3 counterexample: after `<b><b>` two mapped tags are still open, but the
end-of-input loop invokes the close handler only once — the handler's own
matching pop consumes the adjacent duplicate name, so not every opened tag
receives a close-handler invocation. -/
theorem c3_duplicate_names_counterexample :
    stateBB.tagStack.length = 2 ∧
      (closeUnclosedTags defaultOpts stateBB).2.length = 1 := by
  decide

/-- C3 amended: at end of input, close events are synthesized
most-recently-opened first until `openTagStack` empties; when no two adjacent
entries of `openTagStack` are equal (and no raw `li` entry is present — the
machine never pushes one), every still-open tag receives exactly one
close-handler invocation, in reverse-open order, and the stack ends empty.
With adjacent duplicate names the handler's matching pop consumes the
duplicate, so such tags receive fewer invocations. -/
theorem c3_synthesized_closes_amended (opts : Options) (s : State)
    (hli : "li" ∉ s.tagStack)
    (hch : List.Chain' (fun a b => a ≠ b) s.tagStack) :
    (closeUnclosedTags opts s).2 = s.tagStack ∧
      (closeUnclosedTags opts s).2.length = s.tagStack.length ∧
      (closeUnclosedTags opts s).1.tagStack = [] := by
  have h := closeLoop_trace opts s.tagStack s rfl hli hch
  exact ⟨h.1, by unfold closeUnclosedTags; rw [h.1], h.2⟩

/-- C3 witness: concrete instance of the amended claim at the state reached
by `<ol><li>`, whose two still-open effective names `olli`, `ol` are adjacent
and distinct. -/
theorem c3_synthesized_closes_witness :
    ("li" ∉ stateOlLi.tagStack) ∧
      (closeUnclosedTags defaultOpts stateOlLi).2 = stateOlLi.tagStack :=
  ⟨by decide,
   (c3_synthesized_closes_amended defaultOpts stateOlLi (by decide)
     (by
       have hts : stateOlLi.tagStack = ["olli", "ol"] := by decide
       rw [hts]
       exact List.chain'_cons.mpr ⟨by decide, List.chain'_singleton "ol"⟩)).1⟩

/-- C4 counterexample: the finalized output of converting the single text
`a   b` (three spaces) is `a  b`, which still contains a run of two
consecutive spaces — the single left-to-right pass reduces a run of three
spaces to two, not one. -/
theorem c4_double_space_counterexample :
    write defaultOpts [Event.text "a   b"] = "a  b" ∧
      hasDoubleSpace (write defaultOpts [Event.text "a   b"]).data = true := by
  exact ⟨by decide, by decide⟩

/-- C4 amended: after finalization, provided the joined buffer contains no
run of three or more consecutive spaces, the returned string contains no two
consecutive spaces and no space immediately preceding a line break (each
two-space pair is reduced once and each remaining space-newline pair is
reduced once, left to right, non-overlapping); longer space runs can survive
the single replacement pass. -/
theorem c4_whitespace_amended (opts : Options) (es : List Event)
    (h : hasTripleSpace (String.join (finalState opts es).stack).data = false) :
    hasDoubleSpace (write opts es).data = false ∧
      hasSpaceBeforeNL (write opts es).data = false := by
  have hw : (write opts es).data =
      dropSpaceNL (collapseSpaces (String.join (finalState opts es).stack).data) := rfl
  rw [hw]
  have h2 := dropSpaceNL_ok _ (collapseSpaces_noDouble _ h)
  exact ⟨h2.2, h2.1⟩

/-- C4 witness: concrete instance of the amended claim on the conversion of
the text `a b`, whose buffer has no triple-space run. -/
theorem c4_whitespace_amended_witness :
    hasTripleSpace (String.join (finalState defaultOpts [Event.text "a b"]).stack).data = false ∧
      hasDoubleSpace (write defaultOpts [Event.text "a b"]).data = false ∧
      hasSpaceBeforeNL (write defaultOpts [Event.text "a b"]).data = false :=
  ⟨by decide,
   (c4_whitespace_amended defaultOpts [Event.text "a b"] (by decide)).1,
   (c4_whitespace_amended defaultOpts [Event.text "a b"] (by decide)).2⟩

/-- C5: evaluating the converter on `<h1>test</h1><h2>test</h2>` yields
`# test\n## test\n`, not the `# test\n\n## test\n\n` the claim (and the
repository's own `headers` test) expects: the heading dialect entries carry
no `block` flag and their close marker is a single `\n`. -/
theorem c5_headings_eval :
    write defaultOpts
        [Event.openTag "h1" [], Event.text "test", Event.closeTag "h1",
         Event.openTag "h2" [], Event.text "test", Event.closeTag "h2"] =
      "# test\n## test\n" ∧
      ("# test\n## test\n" : String) ≠ "# test\n\n## test\n\n" := by
  exact ⟨by decide, by decide⟩

/-- C6 counterexample: in the state reached by `<a href="x"><b>t` (deferred
insertion active with `spliceCursor = 3`), closing `b` — a mapped tag with a
non-empty close marker, suppression unset — inserts the marker at the cursor
but does NOT advance it: the cursor stays 3 instead of the claimed 4. -/
theorem c6_splice_cursor_counterexample :
    stateACb.spliceStack = ["a"] ∧ stateACb.ignoreClose = false ∧
      stateACb.splicePos = 3 ∧
      (onclosetag defaultOpts "b" stateACb).splicePos = 3 ∧
      (onclosetag defaultOpts "b" stateACb).splicePos ≠ stateACb.splicePos + 1 := by
  exact ⟨by decide, by decide, by decide, by decide, by decide⟩

/-- C6 amended: on a close event for a mapped tag (effective name unchanged,
i.e. not the raw item tag), when the close-suppression flag is not set, the
close marker is non-empty, and deferred insertion is active, the close marker
is inserted at `spliceCursor` — the prefix before the cursor is unchanged and
the marker sits at the cursor index — but `spliceCursor` is NOT advanced
(the close handler never writes it). -/
theorem c6_close_marker_amended (opts : Options) (n : String) (s : State) (tag : TagSpec)
    (hli : n ≠ "li") (htt : tagTable n = some tag) (hic : s.ignoreClose = false)
    (hcl : tag.close.length > 0) (hsp : s.spliceStack.length > 0)
    (hpos : s.splicePos ≤ s.stack.length) :
    (onclosetag opts n s).splicePos = s.splicePos ∧
      ((onclosetag opts n s).stack)[s.splicePos]? = some tag.close ∧
      ((onclosetag opts n s).stack).take s.splicePos = s.stack.take s.splicePos := by
  have hsp3 := onclosetag_stack_splice_cases opts n s tag hli htt hic hcl hsp
  refine ⟨onclosetag_splicePos opts n s, ?_, ?_⟩
  · rcases hsp3 with hst | hst | hst <;> rw [hst] <;>
      first
        | exact spliceIns_getElem _ _ _ hpos
        | (rw [List.getElem?_append_left (by rw [spliceIns_length]; omega)]
           exact spliceIns_getElem _ _ _ hpos)
  · rcases hsp3 with hst | hst | hst <;> rw [hst] <;>
      first
        | exact spliceIns_take _ _ _ hpos
        | (rw [List.take_append_of_le_length (by rw [spliceIns_length]; omega)]
           exact spliceIns_take _ _ _ hpos)

/-- C6 witness: concrete instance of the amended claim in the state reached
by `<a href="x"><b>t`, closing `b`: the `**` close marker lands at cursor
index 3 and the cursor stays 3. -/
theorem c6_close_marker_amended_witness :
    stateACb.spliceStack.length > 0 ∧
      ((onclosetag defaultOpts "b" stateACb).splicePos = stateACb.splicePos ∧
        ((onclosetag defaultOpts "b" stateACb).stack)[stateACb.splicePos]? = some "**" ∧
        ((onclosetag defaultOpts "b" stateACb).stack).take stateACb.splicePos =
          stateACb.stack.take stateACb.splicePos) :=
  ⟨by decide,
   c6_close_marker_amended defaultOpts "b" stateACb
     { openMark := "**", close := "**" } (by decide) (by decide) (by decide)
     (by decide) (by decide) (by decide)⟩

/-- C7: evaluating the text handler on the value `"\n"` in the state reached
by `<h1>a</h1>` — previous fragment ends in a line break, trim mode off, no
deferred insertion — appends `"\n"` UNCHANGED instead of stripping it: the
source's condition reads `this.text` (a property never assigned, always
`undefined`) instead of the `text` parameter, so the second disjunct of the
stripping condition can never hold. -/
theorem c7_text_newline_eval :
    stateH1a.trimNL = false ∧ stateH1a.spliceStack = [] ∧
      fragEndsNL stateH1a.stack.getLast? = true ∧
      (ontext "\n" stateH1a).stack = stateH1a.stack ++ ["\n"] ∧
      (ontext "\n" stateH1a).stack ≠ stateH1a.stack ++ [stripNL "\n"] := by
  exact ⟨by decide, by decide, by decide, by decide, by decide⟩

/-- C8 counterexample: in the state reached by `<ol><li>` the top of
`openTagStack` is the effective name `olli`; a close event for the raw name
`li` does not equal that top, yet the handler remaps `li` to `olli` and pops
the stack — so a close whose (raw) name differs from the top can still
change `openTagStack`. -/
theorem c8_li_close_counterexample :
    stateOlLi.tagStack.head? = some "olli" ∧
      some "li" ≠ stateOlLi.tagStack.head? ∧
      (onclosetag defaultOpts "li" stateOlLi).tagStack ≠ stateOlLi.tagStack := by
  exact ⟨by decide, by decide, by decide⟩

/-- C8 amended: for every close event whose EFFECTIVE name (after list-item
resolution) does not equal the top of `openTagStack`, the close handler
leaves `openTagStack` unchanged; the handler is a total function in this
embedding, so it completes without raising any error. -/
theorem c8_mismatched_close_amended (opts : Options) (n : String) (s : State)
    (h : s.tagStack.head? ≠ some (closeEffName n s)) :
    (onclosetag opts n s).tagStack = s.tagStack :=
  onclosetag_tagStack_of_ne opts n s h

/-- C8 witness: concrete instance of the amended claim: closing `b` in the
reset state (empty `openTagStack`) leaves the stack unchanged. -/
theorem c8_mismatched_close_amended_witness :
    initState.tagStack.head? ≠ some (closeEffName "b" initState) ∧
      (onclosetag defaultOpts "b" initState).tagStack = initState.tagStack :=
  ⟨by decide, c8_mismatched_close_amended defaultOpts "b" initState (by decide)⟩

/-- C9: after processing any event sequence from the reset state, the length
of `openTagStack` is greater than or equal to the length of `indentStack`,
which is greater than or equal to zero. -/
theorem c9_stack_length_invariant (opts : Options) (es : List Event) :
    (run opts es).indentStack.length ≤ (run opts es).tagStack.length ∧
      0 ≤ (run opts es).indentStack.length :=
  ⟨le_trans (run_INV opts es) (countIndent_le_length _), Nat.zero_le _⟩

/-- C10: an open event for `li` while `listStack` is empty looks up the name
`undefinedli`, which is absent from the dialect, so the element is handled as
an unmapped tag — literal pass-through (or silent drop under `stripTags`)
and no stack pushes — yet `trimNL` is switched on; `trimNL` is preserved by
every text event and by open/close events of other names, is only reset by a
`li` close event, and while on (with deferred insertion inactive) it makes
the text handler strip line breaks from appended text. -/
theorem c10_li_outside_list (opts : Options) (attrs : List (String × String)) (s : State)
    (h : s.listStack = []) :
    tagTable "undefinedli" = none ∧
      (onopentag opts "li" attrs s).trimNL = true ∧
      (onopentag opts "li" attrs s).tagStack = s.tagStack ∧
      (onopentag opts "li" attrs s).listStack = s.listStack ∧
      (onopentag opts "li" attrs s).indentStack = s.indentStack ∧
      (onopentag opts "li" attrs s).spliceStack = s.spliceStack ∧
      (onopentag opts "li" attrs s).splicePos = s.splicePos ∧
      (onopentag opts "li" attrs s).stack =
        (if opts.stripTags then s.stack
         else s.stack ++ [rebuildTag "li" attrs Phase.openP]) ∧
      (∀ (t : String) (s2 : State), (ontext t s2).trimNL = s2.trimNL) ∧
      (∀ (m : String) (a2 : List (String × String)) (s2 : State), m ≠ "li" →
        (onopentag opts m a2 s2).trimNL = s2.trimNL) ∧
      (∀ (m : String) (s2 : State), m ≠ "li" → (onclosetag opts m s2).trimNL = s2.trimNL) ∧
      (onclosetag opts "li" s).trimNL = false ∧
      (∀ (t : String) (s2 : State), s2.trimNL = true → s2.spliceStack = [] → s2.tag = none →
        (ontext t s2).stack = s2.stack ++ [stripNL t]) := by
  have htt : tagTable (openEffName "li" s) = none := by
    unfold openEffName jsStr
    rw [if_pos rfl, h]
    decide
  refine ⟨by decide, ?_, ?_, ?_, ?_, ?_, ?_, ?_,
    fun t s2 => ontext_trimNL t s2,
    fun m a2 s2 hm => onopentag_trimNL_ne opts m a2 s2 hm,
    fun m s2 hm => onclosetag_trimNL_ne opts m s2 hm,
    onclosetag_trimNL_li opts s,
    fun t s2 h1 h2 h3 => ontext_stack_trim t s2 h1 h2 h3⟩
  all_goals simp only [onopentag, htt]
  all_goals rfl

/-- C10 witness: concrete instance at the reset state: opening `li` with no
enclosing list leaves the stacks unchanged and switches `trimNL` on. -/
theorem c10_li_outside_list_witness :
    initState.listStack = [] ∧
      (onopentag defaultOpts "li" [] initState).trimNL = true ∧
      (onopentag defaultOpts "li" [] initState).tagStack = initState.tagStack :=
  ⟨rfl, (c10_li_outside_list defaultOpts [] initState rfl).2.1,
   (c10_li_outside_list defaultOpts [] initState rfl).2.2.1⟩
